import Mathlib

/-!
Shallow embedding of `tshare.py`, a (2,3) threshold secret-sharing module.

Bytes are modelled as `Nat` values below 256.  The random mask drawn by
`urandom(n)` in `split_bytes` is passed as an explicit list `r` of the same
length as the secret.  Python's `ValueError('size mismatch')` and
`ValueError('invalid shares')` are modelled by an error type with two
constructors, and the fallible `join_bytes` returns `Except`.
-/

set_option maxRecDepth 8000

namespace TShare

/-- Payload byte of share 0: `((x & 0xf0) >> 4) ^ y` (line 35 of tshare.py). -/
def payload0 (x y : Nat) : Nat := ((x &&& 0xf0) >>> 4) ^^^ y

/-- Payload byte of share 1: `((x & 0x0f) << 4) ^ y` (line 36 of tshare.py). -/
def payload1 (x y : Nat) : Nat := ((x &&& 0x0f) <<< 4) ^^^ y

/-- Payload byte of share 2: `x ^ y` (line 37 of tshare.py). -/
def payload2 (x y : Nat) : Nat := x ^^^ y

/-- `split_bytes` with the mask `r` (the bytes `urandom` returns) explicit:
returns the three tagged shares `[s0, s1, s2]`. -/
def split_bytes (m r : List Nat) : List (List Nat) :=
  [0x00 :: List.zipWith payload0 m r,
   0x01 :: List.zipWith payload1 m r,
   0x02 :: List.zipWith payload2 m r]

/-- The two errors `join_bytes` can raise. -/
inductive JoinError where
  | sizeMismatch
  | invalidShare
deriving DecidableEq, Repr

/-- Per-byte recovery for tags (0,1): swap the nibbles of `c = a[i] ^ b[i]`. -/
def recover01 (c : Nat) : Nat := ((c <<< 4) &&& 0xf0) ||| ((c >>> 4) &&& 0x0f)

/-- Per-byte recovery for tags (0,2): `((c & 0xf0) >> 4) ^ c`. -/
def recover02 (c : Nat) : Nat := ((c &&& 0xf0) >>> 4) ^^^ c

/-- Per-byte recovery for tags (1,2): `((c & 0x0f) << 4) ^ c`. -/
def recover12 (c : Nat) : Nat := ((c &&& 0x0f) <<< 4) ^^^ c

/-- `__join_bytes_01`: recover the secret from payloads of shares 0 and 1. -/
def join_bytes_01 (a b : List Nat) : List Nat :=
  List.zipWith (fun p q => recover01 (p ^^^ q)) a.tail b.tail

/-- `__join_bytes_02`: recover the secret from payloads of shares 0 and 2. -/
def join_bytes_02 (a b : List Nat) : List Nat :=
  List.zipWith (fun p q => recover02 (p ^^^ q)) a.tail b.tail

/-- `__join_bytes_12`: recover the secret from payloads of shares 1 and 2. -/
def join_bytes_12 (a b : List Nat) : List Nat :=
  List.zipWith (fun p q => recover12 (p ^^^ q)) a.tail b.tail

/-- `join_bytes`: validate sizes and tags, normalize order, and dispatch on
the tag pair, exactly as lines 44-59 of tshare.py. -/
def join_bytes (a b : List Nat) : Except JoinError (List Nat) :=
  if a.length ≠ b.length then .error .sizeMismatch
  else if a.length < 1 then .error .invalidShare
  else
    let p := if a.headI > b.headI then (b, a) else (a, b)
    if p.1.headI = 0x00 ∧ p.2.headI = 0x01 then .ok (join_bytes_01 p.1 p.2)
    else if p.1.headI = 0x00 ∧ p.2.headI = 0x02 then .ok (join_bytes_02 p.1 p.2)
    else if p.1.headI = 0x01 ∧ p.2.headI = 0x02 then .ok (join_bytes_12 p.1 p.2)
    else .error .invalidShare

/-- `split_bytes` on a string input: Python first re-encodes the text as its
UTF-8 bytes (`bytearray(m, 'utf8')`, line 22) and splits those. -/
def split_bytes_str (s : String) (r : List Nat) : List (List Nat) :=
  split_bytes (s.toUTF8.data.toList.map (fun b => b.toNat)) r

/-! ### Helper lemmas -/

lemma xor_mask_cancel (u v y : Nat) : (u ^^^ y) ^^^ (v ^^^ y) = u ^^^ v := by
  rw [Nat.xor_assoc, Nat.xor_comm y, Nat.xor_cancel_right]

lemma recover01_byte :
    ∀ x < 256, recover01 (((x &&& 0xf0) >>> 4) ^^^ ((x &&& 0x0f) <<< 4)) = x := by decide

lemma recover02_byte :
    ∀ x < 256, recover02 (((x &&& 0xf0) >>> 4) ^^^ x) = x := by decide

lemma recover12_byte :
    ∀ x < 256, recover12 (((x &&& 0x0f) <<< 4) ^^^ x) = x := by decide

lemma join01_byte (x y : Nat) (hx : x < 256) :
    recover01 (payload0 x y ^^^ payload1 x y) = x := by
  unfold payload0 payload1
  rw [xor_mask_cancel]
  exact recover01_byte x hx

lemma join02_byte (x y : Nat) (hx : x < 256) :
    recover02 (payload0 x y ^^^ payload2 x y) = x := by
  unfold payload0 payload2
  rw [xor_mask_cancel]
  exact recover02_byte x hx

lemma join12_byte (x y : Nat) (hx : x < 256) :
    recover12 (payload1 x y ^^^ payload2 x y) = x := by
  unfold payload1 payload2
  rw [xor_mask_cancel]
  exact recover12_byte x hx

lemma zipWith_zipWith_same (h f g : Nat → Nat → Nat) :
    ∀ (m r : List Nat),
      List.zipWith h (List.zipWith f m r) (List.zipWith g m r) =
        List.zipWith (fun x y => h (f x y) (g x y)) m r
  | [], _ => rfl
  | _ :: _, [] => rfl
  | x :: m, y :: r => by
      simp only [List.zipWith]
      exact congrArg _ (zipWith_zipWith_same h f g m r)

lemma zipWith_eq_left (F : Nat → Nat → Nat) :
    ∀ (m r : List Nat), (∀ x ∈ m, ∀ y, F x y = x) → r.length = m.length →
      List.zipWith F m r = m
  | [], _, _, _ => rfl
  | _ :: _, [], _, hlen => by simp at hlen
  | x :: m, y :: r, hF, hlen => by
      simp only [List.zipWith]
      rw [hF x (List.mem_cons_self x m) y,
        zipWith_eq_left F m r (fun a ha z => hF a (List.mem_cons_of_mem x ha) z)
          (by simpa using hlen)]

lemma join_bytes_cons_01 (u v : List Nat) (hlen : u.length = v.length) :
    join_bytes (0x00 :: u) (0x01 :: v) =
      Except.ok (List.zipWith (fun p q => recover01 (p ^^^ q)) u v) := by
  simp [join_bytes, join_bytes_01, hlen]

lemma join_bytes_cons_02 (u v : List Nat) (hlen : u.length = v.length) :
    join_bytes (0x00 :: u) (0x02 :: v) =
      Except.ok (List.zipWith (fun p q => recover02 (p ^^^ q)) u v) := by
  simp [join_bytes, join_bytes_02, hlen]

lemma join_bytes_cons_12 (u v : List Nat) (hlen : u.length = v.length) :
    join_bytes (0x01 :: u) (0x02 :: v) =
      Except.ok (List.zipWith (fun p q => recover12 (p ^^^ q)) u v) := by
  simp [join_bytes, join_bytes_12, hlen]

lemma join_split_01 (m r : List Nat) (hm : ∀ x ∈ m, x < 256) (hr : r.length = m.length) :
    join_bytes (0x00 :: List.zipWith payload0 m r) (0x01 :: List.zipWith payload1 m r) =
      Except.ok m := by
  rw [join_bytes_cons_01 _ _ (by simp [hr]), zipWith_zipWith_same]
  exact congrArg Except.ok
    (zipWith_eq_left _ m r (fun x hx y => join01_byte x y (hm x hx)) hr)

lemma join_split_02 (m r : List Nat) (hm : ∀ x ∈ m, x < 256) (hr : r.length = m.length) :
    join_bytes (0x00 :: List.zipWith payload0 m r) (0x02 :: List.zipWith payload2 m r) =
      Except.ok m := by
  rw [join_bytes_cons_02 _ _ (by simp [hr]), zipWith_zipWith_same]
  exact congrArg Except.ok
    (zipWith_eq_left _ m r (fun x hx y => join02_byte x y (hm x hx)) hr)

lemma join_split_12 (m r : List Nat) (hm : ∀ x ∈ m, x < 256) (hr : r.length = m.length) :
    join_bytes (0x01 :: List.zipWith payload1 m r) (0x02 :: List.zipWith payload2 m r) =
      Except.ok m := by
  rw [join_bytes_cons_12 _ _ (by simp [hr]), zipWith_zipWith_same]
  exact congrArg Except.ok
    (zipWith_eq_left _ m r (fun x hx y => join12_byte x y (hm x hx)) hr)

lemma getD_zipWith (f : Nat → Nat → Nat) :
    ∀ (xs ys : List Nat) (i : Nat), i < xs.length → i < ys.length →
      (List.zipWith f xs ys).getD i 0 = f (xs.getD i 0) (ys.getD i 0)
  | [], _, _, h, _ => absurd h (by simp)
  | _ :: _, [], _, _, h => absurd h (by simp)
  | x :: xs, y :: ys, 0, _, _ => rfl
  | x :: xs, y :: ys, i + 1, h1, h2 => by
      simp only [List.zipWith, List.getD_cons_succ]
      exact getD_zipWith f xs ys i (by simpa using h1) (by simpa using h2)

lemma join_bytes_eval_noswap (a0 b0 : Nat) (u v : List Nat) (huv : u.length = v.length)
    (hab : ¬ a0 > b0) :
    join_bytes (a0 :: u) (b0 :: v) =
      (if a0 = 0 ∧ b0 = 1 then Except.ok (join_bytes_01 (a0 :: u) (b0 :: v))
       else if a0 = 0 ∧ b0 = 2 then Except.ok (join_bytes_02 (a0 :: u) (b0 :: v))
       else if a0 = 1 ∧ b0 = 2 then Except.ok (join_bytes_12 (a0 :: u) (b0 :: v))
       else Except.error JoinError.invalidShare) := by
  simp only [join_bytes, List.length_cons, List.headI_cons]
  rw [if_neg (show ¬((u.length + 1 : Nat) ≠ v.length + 1) by simp [huv]),
    if_neg (show ¬((u.length + 1 : Nat) < 1) by simp), if_neg hab]
  rfl

lemma join_bytes_eval_swap (a0 b0 : Nat) (u v : List Nat) (huv : u.length = v.length)
    (hab : a0 > b0) :
    join_bytes (a0 :: u) (b0 :: v) =
      (if b0 = 0 ∧ a0 = 1 then Except.ok (join_bytes_01 (b0 :: v) (a0 :: u))
       else if b0 = 0 ∧ a0 = 2 then Except.ok (join_bytes_02 (b0 :: v) (a0 :: u))
       else if b0 = 1 ∧ a0 = 2 then Except.ok (join_bytes_12 (b0 :: v) (a0 :: u))
       else Except.error JoinError.invalidShare) := by
  simp only [join_bytes, List.length_cons, List.headI_cons]
  rw [if_neg (show ¬((u.length + 1 : Nat) ≠ v.length + 1) by simp [huv]),
    if_neg (show ¬((u.length + 1 : Nat) < 1) by simp), if_pos hab]
  rfl

lemma join_bytes_comm_helper (a b : List Nat) : join_bytes a b = join_bytes b a := by
  by_cases hlen : a.length = b.length
  · match a, b with
    | [], [] => rfl
    | [], _ :: _ => simp at hlen
    | _ :: _, [] => simp at hlen
    | a0 :: u, b0 :: v =>
      have huv : u.length = v.length := by simpa using hlen
      rcases Nat.lt_trichotomy a0 b0 with h | h | h
      · rw [join_bytes_eval_noswap a0 b0 u v huv (by omega),
          join_bytes_eval_swap b0 a0 v u huv.symm h]
      · subst h
        rw [join_bytes_eval_noswap a0 a0 u v huv (by omega),
          join_bytes_eval_noswap a0 a0 v u huv.symm (by omega)]
        rw [if_neg (show ¬(a0 = 0 ∧ a0 = 1) by omega),
          if_neg (show ¬(a0 = 0 ∧ a0 = 2) by omega),
          if_neg (show ¬(a0 = 1 ∧ a0 = 2) by omega),
          if_neg (show ¬(a0 = 0 ∧ a0 = 1) by omega),
          if_neg (show ¬(a0 = 0 ∧ a0 = 2) by omega),
          if_neg (show ¬(a0 = 1 ∧ a0 = 2) by omega)]
      · rw [join_bytes_eval_swap a0 b0 u v huv h,
          join_bytes_eval_noswap b0 a0 v u huv.symm (by omega)]
  · simp only [join_bytes]
    rw [if_pos hlen, if_pos (Ne.symm hlen)]

/-! ### Claims -/

/-- C1: for every byte sequence `m` and mask of the same length, `split_bytes`
produces three shares such that joining any two of them recovers `m` byte for
byte. -/
theorem c1_roundtrip_all_pairs (m r : List Nat) (hm : ∀ x ∈ m, x < 256)
    (hr : r.length = m.length) :
    ∃ s0 s1 s2, split_bytes m r = [s0, s1, s2] ∧
      join_bytes s0 s1 = Except.ok m ∧ join_bytes s0 s2 = Except.ok m ∧
      join_bytes s1 s2 = Except.ok m :=
  ⟨_, _, _, rfl, join_split_01 m r hm hr, join_split_02 m r hm hr,
    join_split_12 m r hm hr⟩

/-- Witness for C1 at the secret `[0x5A, 0x00, 0xFF]` and mask `[0x3C, 0x01, 0x80]`. -/
theorem c1_roundtrip_all_pairs_witness :
    (∀ x ∈ ([0x5A, 0x00, 0xFF] : List Nat), x < 256) ∧
    ([0x3C, 0x01, 0x80] : List Nat).length = ([0x5A, 0x00, 0xFF] : List Nat).length ∧
    (∃ s0 s1 s2, split_bytes [0x5A, 0x00, 0xFF] [0x3C, 0x01, 0x80] = [s0, s1, s2] ∧
      join_bytes s0 s1 = Except.ok [0x5A, 0x00, 0xFF] ∧
      join_bytes s0 s2 = Except.ok [0x5A, 0x00, 0xFF] ∧
      join_bytes s1 s2 = Except.ok [0x5A, 0x00, 0xFF]) :=
  ⟨by decide, rfl, c1_roundtrip_all_pairs [0x5A, 0x00, 0xFF] [0x3C, 0x01, 0x80]
    (by decide) rfl⟩

/-- C2: `split_bytes` on a secret of length `n` and a mask of length `n`
returns exactly three shares of length `n + 1`, with first bytes 0x00, 0x01,
0x02, and with the payload bytes given by the three per-byte formulas. -/
theorem c2_split_postcondition (m r : List Nat) (hr : r.length = m.length) :
    ∃ p0 p1 p2,
      split_bytes m r = [0x00 :: p0, 0x01 :: p1, 0x02 :: p2] ∧
      (0x00 :: p0).length = m.length + 1 ∧ (0x01 :: p1).length = m.length + 1 ∧
      (0x02 :: p2).length = m.length + 1 ∧
      ∀ i < m.length,
        p0.getD i 0 = ((m.getD i 0 &&& 0xf0) >>> 4) ^^^ r.getD i 0 ∧
        p1.getD i 0 = ((m.getD i 0 &&& 0x0f) <<< 4) ^^^ r.getD i 0 ∧
        p2.getD i 0 = (m.getD i 0) ^^^ (r.getD i 0) := by
  refine ⟨_, _, _, rfl, by simp [hr], by simp [hr], by simp [hr], ?_⟩
  intro i hi
  have hir : i < r.length := hr ▸ hi
  refine ⟨?_, ?_, ?_⟩
  · rw [getD_zipWith payload0 m r i hi hir]; rfl
  · rw [getD_zipWith payload1 m r i hi hir]; rfl
  · rw [getD_zipWith payload2 m r i hi hir]; rfl

/-- Witness for C2 at the secret `[0x5A, 0x7F]` and mask `[0x3C, 0x11]`. -/
theorem c2_split_postcondition_witness :
    ([0x3C, 0x11] : List Nat).length = ([0x5A, 0x7F] : List Nat).length ∧
    (∃ p0 p1 p2,
      split_bytes [0x5A, 0x7F] [0x3C, 0x11] = [0x00 :: p0, 0x01 :: p1, 0x02 :: p2] ∧
      (0x00 :: p0).length = ([0x5A, 0x7F] : List Nat).length + 1 ∧
      (0x01 :: p1).length = ([0x5A, 0x7F] : List Nat).length + 1 ∧
      (0x02 :: p2).length = ([0x5A, 0x7F] : List Nat).length + 1 ∧
      ∀ i < ([0x5A, 0x7F] : List Nat).length,
        p0.getD i 0 = ((([0x5A, 0x7F] : List Nat).getD i 0 &&& 0xf0) >>> 4) ^^^
          ([0x3C, 0x11] : List Nat).getD i 0 ∧
        p1.getD i 0 = ((([0x5A, 0x7F] : List Nat).getD i 0 &&& 0x0f) <<< 4) ^^^
          ([0x3C, 0x11] : List Nat).getD i 0 ∧
        p2.getD i 0 = (([0x5A, 0x7F] : List Nat).getD i 0) ^^^
          (([0x3C, 0x11] : List Nat).getD i 0)) :=
  ⟨rfl, c2_split_postcondition [0x5A, 0x7F] [0x3C, 0x11] rfl⟩

/-- C3: whenever the two arguments of `join_bytes` have different lengths, it
fails with `sizeMismatch`. -/
theorem c3_size_mismatch (a b : List Nat) (h : a.length ≠ b.length) :
    join_bytes a b = Except.error JoinError.sizeMismatch := by
  unfold join_bytes
  rw [if_pos h]

/-- Witness for C3 at `join_bytes [0x00, 0xAB] [0x01]`. -/
theorem c3_size_mismatch_witness :
    ([0x00, 0xAB] : List Nat).length ≠ ([0x01] : List Nat).length ∧
    join_bytes [0x00, 0xAB] [0x01] = Except.error JoinError.sizeMismatch :=
  ⟨by decide, c3_size_mismatch [0x00, 0xAB] [0x01] (by decide)⟩

/-- C4 counterexample: `join_bytes [] [0x01]` fails with `sizeMismatch`, not
`invalidShare` — the length-mismatch check runs before the tag check. -/
theorem c4_counterexample :
    join_bytes [] [0x01] = Except.error JoinError.sizeMismatch ∧
    join_bytes [] [0x01] ≠ Except.error JoinError.invalidShare :=
  ⟨rfl, fun h => JoinError.noConfusion (Except.error.inj h)⟩

/-- C4 amended: when the two arguments have EQUAL length and the first has
length less than 1 (so both are empty), `join_bytes` fails with
`invalidShare`; `join_bytes [] [0x01]` instead hits the earlier length check. -/
theorem c4_amended_invalid_share (a b : List Nat) (hlen : a.length = b.length)
    (h : a.length < 1) : join_bytes a b = Except.error JoinError.invalidShare := by
  unfold join_bytes
  rw [if_neg (by simp [hlen]), if_pos h]

/-- Witness for the amended C4 at `join_bytes [] []`. -/
theorem c4_amended_invalid_share_witness :
    ([] : List Nat).length = ([] : List Nat).length ∧ ([] : List Nat).length < 1 ∧
    join_bytes [] [] = Except.error JoinError.invalidShare :=
  ⟨rfl, by decide, c4_amended_invalid_share [] [] rfl (by decide)⟩

/-- C5: for equal-length inputs with at least a tag byte, `join_bytes` fails
with `invalidShare` exactly when the unordered pair of first bytes is not one
of {0,1}, {0,2}, {1,2}. -/
theorem c5_invalid_share_iff (a b : List Nat) (hlen : a.length = b.length)
    (h1 : 1 ≤ a.length) :
    (join_bytes a b = Except.error JoinError.invalidShare ↔
      ¬ ((a.headI = 0 ∧ b.headI = 1) ∨ (a.headI = 1 ∧ b.headI = 0) ∨
         (a.headI = 0 ∧ b.headI = 2) ∨ (a.headI = 2 ∧ b.headI = 0) ∨
         (a.headI = 1 ∧ b.headI = 2) ∨ (a.headI = 2 ∧ b.headI = 1))) := by
  match a, b with
  | [], _ => simp at h1
  | _ :: _, [] => simp at hlen
  | a0 :: u, b0 :: v =>
    have huv : u.length = v.length := by simpa using hlen
    simp only [List.headI_cons]
    by_cases hab : a0 > b0
    · rw [join_bytes_eval_swap a0 b0 u v huv hab]
      split_ifs with hc1 hc2 hc3 <;> simp <;> omega
    · rw [join_bytes_eval_noswap a0 b0 u v huv hab]
      split_ifs with hc1 hc2 hc3 <;> simp <;> omega

/-- Witness for C5 at the identical-tags input `[0x00, 0xAB]`, `[0x00, 0xCD]`. -/
theorem c5_invalid_share_iff_witness :
    ([0x00, 0xAB] : List Nat).length = ([0x00, 0xCD] : List Nat).length ∧
    1 ≤ ([0x00, 0xAB] : List Nat).length ∧
    ((join_bytes [0x00, 0xAB] [0x00, 0xCD] = Except.error JoinError.invalidShare ↔
      ¬ ((([0x00, 0xAB] : List Nat).headI = 0 ∧ ([0x00, 0xCD] : List Nat).headI = 1) ∨
         (([0x00, 0xAB] : List Nat).headI = 1 ∧ ([0x00, 0xCD] : List Nat).headI = 0) ∨
         (([0x00, 0xAB] : List Nat).headI = 0 ∧ ([0x00, 0xCD] : List Nat).headI = 2) ∨
         (([0x00, 0xAB] : List Nat).headI = 2 ∧ ([0x00, 0xCD] : List Nat).headI = 0) ∨
         (([0x00, 0xAB] : List Nat).headI = 1 ∧ ([0x00, 0xCD] : List Nat).headI = 2) ∨
         (([0x00, 0xAB] : List Nat).headI = 2 ∧ ([0x00, 0xCD] : List Nat).headI = 1)))) :=
  ⟨rfl, by decide, c5_invalid_share_iff [0x00, 0xAB] [0x00, 0xCD] rfl (by decide)⟩

/-- C6: for every valid pair of shares (equal lengths, a tag byte present,
tags forming one of {0,1}, {0,2}, {1,2}), joining is order independent. -/
theorem c6_join_order_independence (a b : List Nat) (_hlen : a.length = b.length)
    (_h1 : 1 ≤ a.length)
    (_hv : (a.headI = 0 ∧ b.headI = 1) ∨ (a.headI = 1 ∧ b.headI = 0) ∨
      (a.headI = 0 ∧ b.headI = 2) ∨ (a.headI = 2 ∧ b.headI = 0) ∨
      (a.headI = 1 ∧ b.headI = 2) ∨ (a.headI = 2 ∧ b.headI = 1)) :
    join_bytes a b = join_bytes b a :=
  join_bytes_comm_helper a b

/-- Witness for C6 at the valid pair `[0x02, 0x66]`, `[0x00, 0x39]`. -/
theorem c6_join_order_independence_witness :
    ([0x02, 0x66] : List Nat).length = ([0x00, 0x39] : List Nat).length ∧
    1 ≤ ([0x02, 0x66] : List Nat).length ∧
    ((([0x02, 0x66] : List Nat).headI = 0 ∧ ([0x00, 0x39] : List Nat).headI = 1) ∨
     (([0x02, 0x66] : List Nat).headI = 1 ∧ ([0x00, 0x39] : List Nat).headI = 0) ∨
     (([0x02, 0x66] : List Nat).headI = 0 ∧ ([0x00, 0x39] : List Nat).headI = 2) ∨
     (([0x02, 0x66] : List Nat).headI = 2 ∧ ([0x00, 0x39] : List Nat).headI = 0) ∨
     (([0x02, 0x66] : List Nat).headI = 1 ∧ ([0x00, 0x39] : List Nat).headI = 2) ∨
     (([0x02, 0x66] : List Nat).headI = 2 ∧ ([0x00, 0x39] : List Nat).headI = 1)) ∧
    join_bytes [0x02, 0x66] [0x00, 0x39] = join_bytes [0x00, 0x39] [0x02, 0x66] :=
  ⟨rfl, by decide, by decide,
    c6_join_order_independence [0x02, 0x66] [0x00, 0x39] rfl (by decide) (by decide)⟩

/-- C10: `join_bytes` succeeds on every pair of equal-length sequences with a
valid tag pair (whatever the payload bytes), returning a sequence one byte
shorter than a share. -/
theorem c10_join_total_on_valid_tags (a b : List Nat) (hlen : a.length = b.length)
    (h1 : 1 ≤ a.length)
    (hv : (a.headI = 0 ∧ b.headI = 1) ∨ (a.headI = 1 ∧ b.headI = 0) ∨
      (a.headI = 0 ∧ b.headI = 2) ∨ (a.headI = 2 ∧ b.headI = 0) ∨
      (a.headI = 1 ∧ b.headI = 2) ∨ (a.headI = 2 ∧ b.headI = 1)) :
    ∃ m, join_bytes a b = Except.ok m ∧ m.length = a.length - 1 := by
  match a, b with
  | [], _ => simp at h1
  | _ :: _, [] => simp at hlen
  | a0 :: u, b0 :: v =>
    have huv : u.length = v.length := by simpa using hlen
    simp only [List.headI_cons] at hv
    rcases hv with ⟨h2, h3⟩ | ⟨h2, h3⟩ | ⟨h2, h3⟩ | ⟨h2, h3⟩ | ⟨h2, h3⟩ | ⟨h2, h3⟩ <;>
      subst h2 <;> subst h3
    · exact ⟨_, join_bytes_cons_01 u v huv, by simp [List.length_zipWith, huv]⟩
    · rw [join_bytes_comm_helper]
      exact ⟨_, join_bytes_cons_01 v u huv.symm, by simp [List.length_zipWith, huv]⟩
    · exact ⟨_, join_bytes_cons_02 u v huv, by simp [List.length_zipWith, huv]⟩
    · rw [join_bytes_comm_helper]
      exact ⟨_, join_bytes_cons_02 v u huv.symm, by simp [List.length_zipWith, huv]⟩
    · exact ⟨_, join_bytes_cons_12 u v huv, by simp [List.length_zipWith, huv]⟩
    · rw [join_bytes_comm_helper]
      exact ⟨_, join_bytes_cons_12 v u huv.symm, by simp [List.length_zipWith, huv]⟩

/-- Witness for C10 at the tag-only shares `[0x00]`, `[0x01]`, whose join is
the empty sequence. -/
theorem c10_join_total_on_valid_tags_witness :
    ([0x00] : List Nat).length = ([0x01] : List Nat).length ∧
    1 ≤ ([0x00] : List Nat).length ∧
    ((([0x00] : List Nat).headI = 0 ∧ ([0x01] : List Nat).headI = 1) ∨
     (([0x00] : List Nat).headI = 1 ∧ ([0x01] : List Nat).headI = 0) ∨
     (([0x00] : List Nat).headI = 0 ∧ ([0x01] : List Nat).headI = 2) ∨
     (([0x00] : List Nat).headI = 2 ∧ ([0x01] : List Nat).headI = 0) ∨
     (([0x00] : List Nat).headI = 1 ∧ ([0x01] : List Nat).headI = 2) ∨
     (([0x00] : List Nat).headI = 2 ∧ ([0x01] : List Nat).headI = 1)) ∧
    (∃ m, join_bytes [0x00] [0x01] = Except.ok m ∧
      m.length = ([0x00] : List Nat).length - 1) ∧
    join_bytes [0x00] [0x01] = Except.ok [] :=
  ⟨rfl, by decide, by decide,
    c10_join_total_on_valid_tags [0x00] [0x01] rfl (by decide) (by decide), rfl⟩

lemma xor_lt_256 {x y : Nat} (hx : x < 256) (hy : y < 256) : x ^^^ y < 256 :=
  @Nat.xor_lt_two_pow x y 8 hx hy

lemma payload0_const_lt (x : Nat) : ((x &&& 0xf0) >>> 4) < 256 := by
  have h : x &&& 0xf0 < 256 := Nat.and_lt_two_pow x (show (0xf0 : Nat) < 2 ^ 8 by norm_num)
  rw [Nat.shiftRight_eq_div_pow]
  exact lt_of_le_of_lt (Nat.div_le_self _ _) h

lemma payload1_const_lt (x : Nat) : ((x &&& 0x0f) <<< 4) < 256 := by
  have h : x &&& 0x0f < 16 := Nat.and_lt_two_pow x (show (0x0f : Nat) < 2 ^ 4 by norm_num)
  rw [Nat.shiftLeft_eq]
  omega

/-- C7: for a fixed secret byte `x`, each of the three payload maps
`y ↦ payload(x, y)` is a bijection of the byte range 0..255 onto itself, so
the payload value alone carries no information about `x`. -/
theorem c7_single_share_nondisclosure (x : Nat) (hx : x < 256) :
    (∀ y, y < 256 → payload0 x y < 256 ∧ payload1 x y < 256 ∧ payload2 x y < 256) ∧
    (∀ y₁ y₂, payload0 x y₁ = payload0 x y₂ → y₁ = y₂) ∧
    (∀ y₁ y₂, payload1 x y₁ = payload1 x y₂ → y₁ = y₂) ∧
    (∀ y₁ y₂, payload2 x y₁ = payload2 x y₂ → y₁ = y₂) ∧
    (∀ z, z < 256 → ∃ y, y < 256 ∧ payload0 x y = z) ∧
    (∀ z, z < 256 → ∃ y, y < 256 ∧ payload1 x y = z) ∧
    (∀ z, z < 256 → ∃ y, y < 256 ∧ payload2 x y = z) := by
  refine ⟨?_, ?_, ?_, ?_, ?_, ?_, ?_⟩
  · intro y hy
    exact ⟨xor_lt_256 (payload0_const_lt x) hy, xor_lt_256 (payload1_const_lt x) hy,
      xor_lt_256 hx hy⟩
  · intro y₁ y₂ h
    simp only [payload0, Nat.xor_right_inj] at h
    exact h
  · intro y₁ y₂ h
    simp only [payload1, Nat.xor_right_inj] at h
    exact h
  · intro y₁ y₂ h
    simp only [payload2, Nat.xor_right_inj] at h
    exact h
  · intro z hz
    exact ⟨((x &&& 0xf0) >>> 4) ^^^ z, xor_lt_256 (payload0_const_lt x) hz,
      Nat.xor_cancel_left _ _⟩
  · intro z hz
    exact ⟨((x &&& 0x0f) <<< 4) ^^^ z, xor_lt_256 (payload1_const_lt x) hz,
      Nat.xor_cancel_left _ _⟩
  · intro z hz
    exact ⟨x ^^^ z, xor_lt_256 hx hz, Nat.xor_cancel_left _ _⟩

/-- Witness for C7 at the secret byte 0x5A. -/
theorem c7_single_share_nondisclosure_witness :
    (0x5A : Nat) < 256 ∧
    ((∀ y, y < 256 → payload0 0x5A y < 256 ∧ payload1 0x5A y < 256 ∧ payload2 0x5A y < 256) ∧
     (∀ y₁ y₂, payload0 0x5A y₁ = payload0 0x5A y₂ → y₁ = y₂) ∧
     (∀ y₁ y₂, payload1 0x5A y₁ = payload1 0x5A y₂ → y₁ = y₂) ∧
     (∀ y₁ y₂, payload2 0x5A y₁ = payload2 0x5A y₂ → y₁ = y₂) ∧
     (∀ z, z < 256 → ∃ y, y < 256 ∧ payload0 0x5A y = z) ∧
     (∀ z, z < 256 → ∃ y, y < 256 ∧ payload1 0x5A y = z) ∧
     (∀ z, z < 256 → ∃ y, y < 256 ∧ payload2 0x5A y = z)) :=
  ⟨by decide, c7_single_share_nondisclosure 0x5A (by decide)⟩

lemma hi_utf8 : ("hi".toUTF8.data.toList.map (fun b => b.toNat)) = [0x68, 0x69] := by
  simp [String.toUTF8, String.utf8EncodeChar]
  decide

/-- C9: splitting the text "hi" operates on its UTF-8 bytes `[0x68, 0x69]`:
for any mask it produces the same shares as splitting those bytes, and for a
mask of matching length joining any two shares returns those bytes. -/
theorem c9_text_input (r : List Nat) (hr : r.length = 2) :
    split_bytes_str "hi" r = split_bytes [0x68, 0x69] r ∧
    (∃ s0 s1 s2, split_bytes_str "hi" r = [s0, s1, s2] ∧
      join_bytes s0 s1 = Except.ok [0x68, 0x69] ∧
      join_bytes s0 s2 = Except.ok [0x68, 0x69] ∧
      join_bytes s1 s2 = Except.ok [0x68, 0x69]) := by
  have he : split_bytes_str "hi" r = split_bytes [0x68, 0x69] r := by
    unfold split_bytes_str
    rw [hi_utf8]
  refine ⟨he, 0x00 :: List.zipWith payload0 [0x68, 0x69] r,
    0x01 :: List.zipWith payload1 [0x68, 0x69] r,
    0x02 :: List.zipWith payload2 [0x68, 0x69] r, he.trans rfl, ?_, ?_, ?_⟩
  · exact join_split_01 [0x68, 0x69] r (by decide) hr
  · exact join_split_02 [0x68, 0x69] r (by decide) hr
  · exact join_split_12 [0x68, 0x69] r (by decide) hr

/-- Witness for C9 at the mask `[0x3C, 0x11]`. -/
theorem c9_text_input_witness :
    ([0x3C, 0x11] : List Nat).length = 2 ∧
    (split_bytes_str "hi" [0x3C, 0x11] = split_bytes [0x68, 0x69] [0x3C, 0x11] ∧
     (∃ s0 s1 s2, split_bytes_str "hi" [0x3C, 0x11] = [s0, s1, s2] ∧
       join_bytes s0 s1 = Except.ok [0x68, 0x69] ∧
       join_bytes s0 s2 = Except.ok [0x68, 0x69] ∧
       join_bytes s1 s2 = Except.ok [0x68, 0x69])) :=
  ⟨rfl, c9_text_input [0x3C, 0x11] rfl⟩

/-- C8: splitting the single byte 0x5A with mask byte 0x3C gives payloads
0x39, 0x9C, 0x66, and joining any two of the tagged shares yields `[0x5A]`. -/
theorem c8_concrete_scenario :
    split_bytes [0x5A] [0x3C] = [[0x00, 0x39], [0x01, 0x9C], [0x02, 0x66]] ∧
    join_bytes [0x00, 0x39] [0x01, 0x9C] = Except.ok [0x5A] ∧
    join_bytes [0x00, 0x39] [0x02, 0x66] = Except.ok [0x5A] ∧
    join_bytes [0x01, 0x9C] [0x02, 0x66] = Except.ok [0x5A] :=
  ⟨rfl, rfl, rfl, rfl⟩

end TShare
